import Mathlib

/-!
Verification of the Cultured-Downloader-CLI request/session/pagination logic.

The Go source is embedded shallowly: network calls are abstracted as oracles
(functions from the attempt/page index to an outcome), goroutine fan-out is
modelled as a deterministic fold over per-job outcomes, and the mutex-guarded
token refresh is modelled as a small-step interleaving semantics where the
whole body of RefreshAccessToken is a single atomic event (it holds the mutex
for its entire duration).
-/

namespace CulturedDownloader

/-! ## CheckForUgoira (pixiv mobile)

Go artwork entries are `map[string]string`; they are embedded as association
lists with Go's zero-value-on-missing-key lookup semantics. -/

/-- An artwork entry: Go `map[string]string`. -/
abbrev ArtMap := List (String × String)

/-- Go map indexing `m[k]` (returns the zero value `""` when absent). -/
def mapGet (m : ArtMap) (k : String) : String :=
  (m.lookup k).getD ""

/-- Go comma-ok test `_, ok := m[k]`. -/
def mapHasKey (m : ArtMap) (k : String) : Bool :=
  (m.lookup k).isSome

/-- The data of `models.Ugoira` needed here (url, frame delays, file path). -/
structure Ugoira where
  url : String
  filePath : String
  deriving Repr, DecidableEq

/-- Embedding of `(*PixivMobile).CheckForUgoira`: walks the processed artwork
maps; an entry with an `artwork_id` key is turned into a `Ugoira` via
`GetUgoiraMetadata` (a network call, abstracted as `getMeta`), every other
entry is kept in the filtered slice.  The `Sleep` between calls carries no
state and is dropped. -/
def CheckForUgoira (getMeta : String → String → Ugoira) :
    List ArtMap → List ArtMap × List Ugoira
  | [] => ([], [])
  | artwork :: rest =>
    let (fs, us) := CheckForUgoira getMeta rest
    if mapHasKey artwork "artwork_id" then
      (fs, getMeta (mapGet artwork "artwork_id") (mapGet artwork "filepath") :: us)
    else
      (artwork :: fs, us)

/-! ## Batch fan-out (pixiv fanbox)

`getPostDetails` launches one goroutine per post ID; each goroutine sends its
outcome to exactly one of `resChan`/`errChan`.  `getFanboxPosts` launches one
goroutine per submitted paginated URL; each goroutine either sends the 200
response to `resChan` or logs the failure.  The network outcome of each job is
an input to the model; the channel collection is modelled in submission
order (the claims are about set/multiset accounting, not order). -/

/-- Outcome of one `request.CallRequest` call. -/
inductive ReqOutcome where
  | connErr                              -- `err != nil` from the transport
  | response (status : Nat)              -- a response with this status code
  deriving Repr, DecidableEq

/-- Embedding of the goroutine fan-out in `getPostDetails` (pixiv fanbox):
for each post ID, `err != nil` sends to `errChan`, a non-200 status sends to
`errChan`, and a 200 response sends to `resChan`.  Returns the contents of
`(resChan, errChan)` tagged with the job (post ID) they came from. -/
def getPostDetailsFanOut : List (String × ReqOutcome) →
    List (String × Nat) × List String
  | [] => ([], [])
  | (postId, o) :: rest =>
    let (rs, es) := getPostDetailsFanOut rest
    match o with
    | .connErr => (rs, postId :: es)
    | .response status =>
      if status ≠ 200 then (rs, postId :: es)
      else ((postId, status) :: rs, es)

/-- Embedding of the goroutine fan-out in `getFanboxPosts` (pixiv fanbox):
for each submitted paginated URL, `err != nil || res.StatusCode != 200` logs
the failure via `utils.LogError`, otherwise the response goes to `resChan`.
Returns the contents of `resChan` and the list of logged failures, tagged with
the URL they came from. -/
def getFanboxPostsFanOut : List (String × ReqOutcome) →
    List (String × Nat) × List String
  | [] => ([], [])
  | (url, o) :: rest =>
    let (rs, es) := getFanboxPostsFanOut rest
    match o with
    | .connErr => (rs, url :: es)
    | .response status =>
      if status ≠ 200 then (rs, url :: es)
      else ((url, status) :: rs, es)

/-! ## SendRequest (pixiv mobile)

The retry loop `for i := 1; i <= utils.RETRY_COUNTER; i++` of
`(*PixivMobile).SendRequest`.  Each `client.Do` call is abstracted as an
oracle from the attempt number to its outcome; `refreshed` is the boolean
that `RefreshTokenIfReq` returned before the loop (it is never reset inside
the loop).  The value of the constant `utils.RETRY_COUNTER` is not under
src/, so it is kept as a parameter `retryCounter` (the spec gives 5 as the
typical ceiling). -/

/-- Outcome of one `client.Do` attempt inside `SendRequest`:
either a transport error, or a response with a status code and whether
`utils.LoadJsonFromResponse` succeeds on its body. -/
inductive AttemptOutcome where
  | transportErr
  | response (status : Nat) (parseOk : Bool)
  deriving Repr, DecidableEq

/-- What `SendRequest` returns. -/
inductive SendResult where
  | ok                    -- `return nil`
  | jsonErr               -- the JSON parse error returned at the last attempt
  | exhausted             -- `request to ... failed after %d retries`
  deriving Repr, DecidableEq

/-- The loop body of `SendRequest`, at attempt `i` with `left` iterations
still allowed by the `i <= retryCounter` guard (`left = retryCounter + 1 - i`;
the wrapper below maintains this).  Returns the number of `client.Do`
attempts performed and the result.  Mirrors the Go control flow: exhausting
the guard returns the "failed after N retries" error; on a transport error,
sleep and retry; on a response, a JSON parse failure at the final attempt
returns that error; otherwise `refreshed` forces a `continue`, `!CheckStatus`
returns nil, a 200 returns nil, and any other status falls through to the
retry sleep. -/
def sendLoopAux (oracle : Nat → AttemptOutcome) (refreshed checkStatus : Bool)
    (retryCounter : Nat) : Nat → Nat → Nat × SendResult
  | 0, i => (i - 1, .exhausted)
  | left + 1, i =>
    match oracle i with
    | .transportErr => sendLoopAux oracle refreshed checkStatus retryCounter left (i + 1)
    | .response status parseOk =>
      if ¬parseOk ∧ i = retryCounter then (i, .jsonErr)
      else if refreshed then sendLoopAux oracle refreshed checkStatus retryCounter left (i + 1)
      else if ¬checkStatus then (i, .ok)
      else if status = 200 then (i, .ok)
      else sendLoopAux oracle refreshed checkStatus retryCounter left (i + 1)

/-- Embedding of the retry part of `(*PixivMobile).SendRequest`: the loop
`for i := 1; i <= retryCounter; i++`, so attempt numbers start at 1 and
`retryCounter` iterations are allowed. -/
def SendRequest (oracle : Nat → AttemptOutcome) (refreshed checkStatus : Bool)
    (retryCounter : Nat) : Nat × SendResult :=
  sendLoopAux oracle refreshed checkStatus retryCounter retryCounter 1

/-! ## Pagination loops -/

/-- Modelled from the spec: `ConvertPageNumToOffset` is called by the pixiv
listing code but its definition is not under src/.  Spec §4.5 fixes the start
offset: "starts at the minimum page's implied offset ((minPage-1) * pageSize)"
with pageSize 30 (the loop in the source increments the offset by 30), and the
spec's worked example (minPage=2, maxPage=4 yields offsets 30,60,90 then done)
fixes the max offset at `maxPage * 30`. -/
def ConvertPageNumToOffset (minPage maxPage : Nat) : Nat × Nat :=
  ((minPage - 1) * 30, maxPage * 30)

/-- One page of `models.PixivMobileArtworksJson` as the listing loop sees it:
the processed artwork entries and the optional `next_url`. -/
structure MobileResp where
  illusts : List String
  nextUrl : Option String
  deriving Repr, DecidableEq

/-- Embedding of the `for nextUrl != ""` pagination loop shared by the mobile
`GetIllustratorPosts` and the mobile `tagSearch`: each iteration requests the
current offset, appends the page's processed entries, advances the offset by
30, and clears `nextUrl` when the response's `next_url` is nil or
(`hasMax` and the new offset has reached `maxOffset`).  `resp` maps the
iteration index to the (successfully decoded) page; `fuel` bounds the
unrolling.  Returns the offsets requested, the accumulated entries, and
whether the loop finished (false = ran out of fuel). -/
def mobileListLoop (resp : Nat → MobileResp) (hasMax : Bool) (maxOffset : Nat) :
    Nat → Nat → Nat → List Nat × List String × Bool
  | 0, _, _ => ([], [], false)
  | fuel + 1, curOffset, page =>
    let r := resp page
    let newOffset := curOffset + 30
    if r.nextUrl = none ∨ (hasMax ∧ maxOffset ≤ newOffset) then
      ([curOffset], (r.illusts, true))
    else
      let rest := mobileListLoop resp hasMax maxOffset fuel newOffset (page + 1)
      (curOffset :: rest.1, (r.illusts ++ rest.2.1, rest.2.2))

/-- The mobile `GetIllustratorPosts` pagination pass for one artwork type:
computes the offsets from the parsed page range and runs the listing loop
from the min offset (the `goto startLoop` in the source re-runs the same loop
a second time for `type=manga`; each pass is an instance of this function). -/
def GetIllustratorPostsMobile (resp : Nat → MobileResp) (minPage maxPage : Nat)
    (hasMax : Bool) (fuel : Nat) : List Nat × List String × Bool :=
  let (minOffset, maxOffset) := ConvertPageNumToOffset minPage maxPage
  mobileListLoop resp hasMax maxOffset fuel minOffset 0

/-- Outcome of one page of the web `tagSearch` loop: a request/JSON failure
(which the Go code appends to `errSlice` and then `continue`s past), or the
artwork IDs that `ProcessTagJsonResults` extracted. -/
inductive TagOutcome where
  | err
  | ok (ids : List String)
  deriving Repr, DecidableEq

/-- Embedding of the `for { page++; ... }` loop of the web `tagSearch`:
pages below `minPage` are skipped without a request, the loop breaks before
requesting once `hasMax` and `page > maxPage`, a failed page is recorded as an
error and the loop continues, and a page with zero artwork IDs breaks the
loop.  Returns the pages actually requested, the accumulated IDs, and whether
the loop finished (false = ran out of fuel). -/
def tagSearchLoop (resp : Nat → TagOutcome) (minPage maxPage : Nat) (hasMax : Bool) :
    Nat → Nat → List Nat × List String × Bool
  | 0, _ => ([], [], false)
  | fuel + 1, page =>
    let p := page + 1
    if p < minPage then
      tagSearchLoop resp minPage maxPage hasMax fuel p
    else if hasMax ∧ maxPage < p then
      ([], [], true)
    else
      match resp p with
      | .err =>
        let rest := tagSearchLoop resp minPage maxPage hasMax fuel p
        (p :: rest.1, rest.2)
      | .ok ids =>
        if ids.isEmpty then ([p], [], true)
        else
          let rest := tagSearchLoop resp minPage maxPage hasMax fuel p
          (p :: rest.1, (ids ++ rest.2.1, rest.2.2))

/-! ## Token manager (pixiv mobile)

`accessTokenInfo` and the refresh logic of `RefreshAccessToken` /
`RefreshTokenIfReq`.  Wall-clock time is an explicit `Int` (seconds).  The
expiry check in `RefreshTokenIfReq` reads the shared token *without* taking
`accessTokenMu`, while `RefreshAccessToken` holds the mutex for its entire
body; the interleaving model below therefore has two atomic steps per caller:
the unlocked check, and the whole locked refresh. -/

/-- `accessTokenInfo`: the shared access token and its expiry instant. -/
structure TokenState where
  accessToken : String
  expiresAt : Int
  deriving Repr, DecidableEq

/-- The fields of `models.PixivOauthJson` the refresh uses. -/
structure OauthJson where
  accessToken : String
  expiresIn : Int
  deriving Repr, DecidableEq

/-- Outcome of the `request.CallRequestWithData` call inside
`RefreshAccessToken`: a transport error, or a response with a status code and
the (possibly failing) JSON decode of its body. -/
inductive RefreshOutcome where
  | connErr
  | response (status : Nat) (body : Option OauthJson)
  deriving Repr, DecidableEq

/-- The error classes `RefreshAccessToken` can return. -/
inductive RefreshErr where
  | connectionErr        -- transport failure branch (CONNECTION_ERROR)
  | responseErr          -- non-200 response branch (RESPONSE_ERROR)
  | jsonErr              -- `utils.LoadJsonFromResponse` failure
  deriving Repr, DecidableEq

/-- Embedding of the body of `(*PixivMobile).RefreshAccessToken` (the mutex is
held throughout): a transport error or non-200 response returns an error and
leaves the token untouched; on a decoded 200 response the stored token becomes
the response token and the expiry becomes now + (expires_in − 15) seconds. -/
def RefreshAccessToken (s : TokenState) (now : Int) (o : RefreshOutcome) :
    TokenState × Option RefreshErr :=
  match o with
  | .connErr => (s, some .connectionErr)
  | .response status body =>
    if status ≠ 200 then (s, some .responseErr)
    else
      match body with
      | none => (s, some .jsonErr)
      | some oauth =>
        ({ accessToken := oauth.accessToken, expiresAt := now + (oauth.expiresIn - 15) },
         none)

/-- The unlocked validity check at the top of `RefreshTokenIfReq`:
`accessToken != "" && expiresAt.After(now)`. -/
def tokenIsValid (s : TokenState) (now : Int) : Bool :=
  s.accessToken ≠ "" && now < s.expiresAt

/-- Program counter of one caller running `RefreshTokenIfReq`. -/
inductive CallerPC where
  | start        -- about to run the unlocked expiry check
  | needRefresh  -- the check saw an expired/unset token; about to refresh
  | finished     -- `RefreshTokenIfReq` returned
  deriving Repr, DecidableEq

/-- Shared state of the interleaving model: the token, the number of
`RefreshAccessToken` calls made so far, and each caller's program counter. -/
@[ext]
structure MgrState where
  tok : TokenState
  refreshCount : Nat
  pcs : Nat → CallerPC

/-- One scheduler step: advance caller `c` by one atomic step of
`RefreshTokenIfReq`.  The check does not hold the mutex, so two callers can
both pass it before either refreshes; a refresh (the whole locked
`RefreshAccessToken` body) is one atomic event.  Every refresh observes the
same network outcome `o`. -/
def mgrStep (now : Int) (o : RefreshOutcome) (s : MgrState) (c : Nat) : MgrState :=
  match s.pcs c with
  | .start =>
    if tokenIsValid s.tok now then
      { s with pcs := Function.update s.pcs c .finished }
    else
      { s with pcs := Function.update s.pcs c .needRefresh }
  | .needRefresh =>
    { tok := (RefreshAccessToken s.tok now o).1,
      refreshCount := s.refreshCount + 1,
      pcs := Function.update s.pcs c .finished }
  | .finished => s

/-- Run a schedule (a list of caller ids, each entry advancing that caller by
one step). -/
def mgrRun (now : Int) (o : RefreshOutcome) (s : MgrState) (sched : List Nat) : MgrState :=
  sched.foldl (mgrStep now o) s

/-- Initial state for `n` concurrent `RefreshTokenIfReq` callers. -/
def mgrInit (tok : TokenState) (n : Nat) : MgrState :=
  { tok := tok, refreshCount := 0,
    pcs := fun c => if c < n then .start else .finished }

/-! ## Cookie file parsing (src/utils/cookie.go)

Files are embedded as already-read data: the txt parser sees the file as its
list of lines (line reading itself cannot fail in the model), the json parser
sees the result of decoding the file (`none` = decode failure).  `http.Cookie`
is restricted to the fields the parser sets; Go's zero `Expires` is `none`. -/

/-- `http.SameSite` values used by `GetSessionCookieInfo`. -/
inductive SameSite where
  | laxMode
  | noneMode
  deriving Repr, DecidableEq

/-- The `cookieInfo` struct of cookie.go. -/
structure CookieInfo where
  domain : String
  name : String
  sameSite : SameSite
  deriving Repr, DecidableEq

/-- The four website selectors `GetSessionCookieInfo` accepts (any other
string makes the Go function panic before returning). -/
inductive Website where
  | fantia
  | pixivFanbox
  | pixiv
  | kemono
  deriving Repr, DecidableEq

/-- Embedding of `GetSessionCookieInfo`. -/
def GetSessionCookieInfo : Website → CookieInfo
  | .fantia => ⟨"fantia.jp", "_session_id", .laxMode⟩
  | .pixivFanbox => ⟨".fanbox.cc", "FANBOXSESSID", .noneMode⟩
  | .pixiv => ⟨".pixiv.net", "PHPSESSID", .noneMode⟩
  | .kemono => ⟨"kemono.party", "session", .noneMode⟩

/-- The fields of `http.Cookie` that the parsers populate.  `expires = none`
models Go's zero `time.Time`; the timestamp itself is in Unix seconds. -/
structure Cookie where
  name : String
  value : String
  domain : String
  path : String
  secure : Bool
  httpOnly : Bool
  sameSite : SameSite
  expires : Option Int
  deriving Repr, DecidableEq

/-- The `cookieInfoArgs` struct. -/
structure CookieInfoArgs where
  name : String
  sameSite : SameSite
  deriving Repr, DecidableEq

/-- Go `strings.Split` with a one-character separator, over the characters of
the string: fields between separators, empty fields preserved. -/
def goSplit (sep : Char) : List Char → List (List Char)
  | [] => [[]]
  | ch :: rest =>
    let r := goSplit sep rest
    if ch = sep then [] :: r
    else
      match r with
      | [] => [[ch]]
      | f :: fs => (ch :: f) :: fs

/-- Go `strings.TrimSpace` over the characters of the string. -/
def goTrimSpace (cs : List Char) : List Char :=
  ((cs.dropWhile Char.isWhitespace).reverse.dropWhile Char.isWhitespace).reverse

/-- Digit run of Go `strconv.Atoi`: all characters must be decimal digits. -/
def goDigitsAux : List Char → Nat → Option Nat
  | [], acc => some acc
  | ch :: rest, acc =>
    if ch.isDigit then goDigitsAux rest (acc * 10 + (ch.toNat - Char.toNat '0'))
    else none

/-- Go `strconv.Atoi`: optional sign, then a non-empty run of digits. -/
def goAtoi : List Char → Option Int
  | [] => none
  | '+' :: rest =>
    if rest = [] then none else (goDigitsAux rest 0).map Int.ofNat
  | '-' :: rest =>
    if rest = [] then none else (goDigitsAux rest 0).map fun n => -(n : Int)
  | cs => (goDigitsAux cs 0).map Int.ofNat

/-- Processing of one line of a Netscape cookies.txt file by
`parseTxtCookieFile`: skip blank/comment lines, lines with fewer than 7
tab-separated fields, and lines whose name field (index 5) is not the session
cookie name; a malformed expiry field aborts the line (`continue`), an expiry
`> 0` is recorded.  Returns the cookie the line contributes, if any. -/
def parseTxtLine (cookieArgs : CookieInfoArgs) (rawLine : String) : Option Cookie :=
  let line := goTrimSpace rawLine.data
  if line = [] ∨ line.head? = some '#' then none
  else
    let cookieInfos := goSplit '\t' line
    if cookieInfos.length < 7 then none
    else
      let cookieName := String.mk (cookieInfos.getD 5 [])
      if cookieName ≠ cookieArgs.name then none
      else
        let cookie : Cookie :=
          { name := cookieName
            value := String.mk (cookieInfos.getD 6 [])
            domain := String.mk (cookieInfos.getD 0 [])
            path := String.mk (cookieInfos.getD 2 [])
            secure := String.mk (cookieInfos.getD 3 []) = "TRUE"
            httpOnly := true
            sameSite := cookieArgs.sameSite
            expires := none }
        let expiresUnixStr := cookieInfos.getD 4 []
        if expiresUnixStr ≠ [] then
          match goAtoi expiresUnixStr with
          | none => none
          | some expiresUnixInt =>
            if 0 < expiresUnixInt then some { cookie with expires := some expiresUnixInt }
            else some cookie
        else some cookie

/-- Embedding of `parseTxtCookieFile` over the file's lines. -/
def parseTxtCookieFile (lines : List String) (cookieArgs : CookieInfoArgs) : List Cookie :=
  lines.filterMap (parseTxtLine cookieArgs)

/-- One entry of the `ExportedCookies` JSON shape.  `expirationDate` is a
float64 in Go and is truncated to int64 seconds when used; it is embedded as
the integer timestamp. -/
structure ExportedCookie where
  domain : String
  expire : Int
  httpOnly : Bool
  name : String
  path : String
  secure : Bool
  value : String
  session : Bool
  deriving Repr, DecidableEq

/-- Processing of one decoded JSON cookie by `parseJsonCookieFile`: entries
whose name is not the session cookie name are skipped; non-session cookies
keep their expiry. -/
def parseJsonCookie (cookieArgs : CookieInfoArgs) (c : ExportedCookie) : Option Cookie :=
  if c.name ≠ cookieArgs.name then none
  else
    some
      { name := c.name
        value := c.value
        domain := c.domain
        path := c.path
        secure := c.secure
        httpOnly := c.httpOnly
        sameSite := cookieArgs.sameSite
        expires := if c.session then none else some c.expire }

/-- Embedding of `parseJsonCookieFile` over the decoded entries. -/
def parseJsonCookieFile (decoded : List ExportedCookie) (cookieArgs : CookieInfoArgs) :
    List Cookie :=
  decoded.filterMap (parseJsonCookie cookieArgs)

/-- A cookie file as the two parsers can see it: its lines (for the `.txt`
branch) and the result of JSON-decoding it (for the `.json` branch, `none`
meaning the decoder fails on it). -/
structure CookieFileData where
  lines : List String
  jsonDecoded : Option (List ExportedCookie)

/-- The error classes `ParseNetscapeCookieFile` can return. -/
inductive CookieErr where
  | bothFlags        -- "cannot use both cookie file and session id flags"
  | osOpenErr        -- `os.Open` failure
  | jsonDecodeErr    -- JSON decode failure
  | invalidExt       -- "invalid cookie file extension"
  | noSessionCookie  -- "no session cookie found in cookie file"
  deriving Repr, DecidableEq

/-- `filepath.Ext`: the suffix of the path starting at its final dot
(directory separators are not modelled; the paths of interest are file
names). -/
def fileExt (p : String) : String :=
  let parts := goSplit '.' p.data
  if parts.length ≤ 1 then "" else String.mk ('.' :: parts.getLastD [])

/-- Embedding of `ParseNetscapeCookieFile`.  `fs` abstracts `os.Open`
(`none` = open error).  The flag conflict is checked first; then the session
cookie info for the website selects the cookie name; the extension selects the
parser; an empty parse result is the "no session cookie found" error. -/
def ParseNetscapeCookieFile (fs : String → Option CookieFileData)
    (filePath sessionId : String) (website : Website) : Except CookieErr (List Cookie) :=
  if filePath ≠ "" ∧ sessionId ≠ "" then .error .bothFlags
  else
    let info := GetSessionCookieInfo website
    let cookieArgs : CookieInfoArgs := ⟨info.name, info.sameSite⟩
    match fs filePath with
    | none => .error .osOpenErr
    | some content =>
      let parsed : Except CookieErr (List Cookie) :=
        if fileExt filePath = ".txt" then
          .ok (parseTxtCookieFile content.lines cookieArgs)
        else if fileExt filePath = ".json" then
          match content.jsonDecoded with
          | none => .error .jsonDecodeErr
          | some decoded => .ok (parseJsonCookieFile decoded cookieArgs)
        else .error .invalidExt
      match parsed with
      | .error e => .error e
      | .ok cookies =>
        if cookies.isEmpty then .error .noSessionCookie else .ok cookies

/-! ## Download promotion (spec-modelled) -/

/-- The local file system as a path → written-byte-count map. -/
abbrev DlFS := List (String × Nat)

/-- Remove a path. -/
def fsRemove (fs : DlFS) (p : String) : DlFS :=
  fs.filter (fun e => e.1 ≠ p)

/-- Write `n` bytes at path `p` (truncating any previous content). -/
def fsSet (fs : DlFS) (p : String) (n : Nat) : DlFS :=
  (p, n) :: fsRemove fs p

/-- Rename `src` to `dst` (no-op when `src` does not exist). -/
def fsRename (fs : DlFS) (src dst : String) : DlFS :=
  match fs.lookup src with
  | none => fs
  | some n => fsSet (fsRemove fs src) dst n

/-- Transport behaviour for one download job: either the full `n` expected
bytes stream through, or the transport errors after `k` bytes were already
written. -/
inductive DlTransport where
  | full (n : Nat)
  | errAfter (k : Nat)
  deriving Repr, DecidableEq

/-- Modelled from the spec: the byte-writing step of `request.DownloadUrls` is
not under src/ (only its callers in the pixiv/fanbox download processes are).
Spec §4.6: "a download failure after partial bytes are written must not leave
a file application code would mistake for a complete artifact — partial writes
go to a temporary path and are only promoted to the final destination on full
success"; §8: on failure "the temporary artifact is removed or left
unpromoted" (the model removes it).  Returns the resulting file system and
whether the job succeeded. -/
def downloadToPath (fs : DlFS) (tmpPath finalPath : String) (t : DlTransport) :
    DlFS × Bool :=
  match t with
  | .full n => (fsRename (fsSet fs tmpPath n) tmpPath finalPath, true)
  | .errAfter k => (fsRemove (fsSet fs tmpPath k) tmpPath, false)

/-! ## Theorems -/

/-- C10: `CheckForUgoira` partitions its input: the maps with an
`artwork_id` key each contribute exactly one `Ugoira` entry (in input order,
via `GetUgoiraMetadata` on their `artwork_id`/`filepath` fields), every other
map appears unchanged in the filtered slice (in input order), and the two
output lengths sum to the input length. -/
theorem c10_checkForUgoira_partition (getMeta : String → String → Ugoira)
    (l : List ArtMap) :
    (CheckForUgoira getMeta l).1 = l.filter (fun a => !(mapHasKey a "artwork_id")) ∧
    (CheckForUgoira getMeta l).2 =
      (l.filter (fun a => mapHasKey a "artwork_id")).map
        (fun a => getMeta (mapGet a "artwork_id") (mapGet a "filepath")) ∧
    (CheckForUgoira getMeta l).1.length + (CheckForUgoira getMeta l).2.length = l.length := by
  induction l with
  | nil => simp [CheckForUgoira]
  | cons a rest ih =>
    obtain ⟨ih1, ih2, ih3⟩ := ih
    by_cases h : mapHasKey a "artwork_id"
    · refine ⟨?_, ?_, ?_⟩
      · simp [CheckForUgoira, h, ih1]
      · simp [CheckForUgoira, h, ih2]
      · simp [CheckForUgoira, h]
        omega
    · refine ⟨?_, ?_, ?_⟩
      · simp [CheckForUgoira, h, ih1]
      · simp [CheckForUgoira, h, ih2]
      · simp [CheckForUgoira, h]
        omega

/-- C1: in the fanbox batch fan-outs, each submitted job lands in exactly one
of the result collection and the error collection: the lengths of the two
collections sum to the number of submitted jobs, and the job ids tagged on
results and errors are, as a multiset, exactly the submitted job ids.  This
holds both for `getPostDetails` (results to `resChan`, failures to `errChan`)
and for `getFanboxPosts` (results to `resChan`, failures logged). -/
theorem c1_batch_accounting (jobs : List (String × ReqOutcome)) :
    ((getPostDetailsFanOut jobs).1.length + (getPostDetailsFanOut jobs).2.length
        = jobs.length ∧
      ((getPostDetailsFanOut jobs).1.map Prod.fst ++ (getPostDetailsFanOut jobs).2).Perm
        (jobs.map Prod.fst)) ∧
    ((getFanboxPostsFanOut jobs).1.length + (getFanboxPostsFanOut jobs).2.length
        = jobs.length ∧
      ((getFanboxPostsFanOut jobs).1.map Prod.fst ++ (getFanboxPostsFanOut jobs).2).Perm
        (jobs.map Prod.fst)) := by
  induction jobs with
  | nil => simp [getPostDetailsFanOut, getFanboxPostsFanOut]
  | cons job rest ih =>
    obtain ⟨⟨ihp1, ihp2⟩, ⟨ihf1, ihf2⟩⟩ := ih
    obtain ⟨id, o⟩ := job
    constructor
    · cases o with
      | connErr =>
        refine ⟨by simp [getPostDetailsFanOut]; omega, ?_⟩
        simp only [getPostDetailsFanOut, List.map_cons]
        exact (List.perm_middle.trans (ihp2.cons id))
      | response status =>
        by_cases hs : status = 200
        · subst hs
          have h200 : ¬((200 : Nat) ≠ 200) := by decide
          refine ⟨by simp [getPostDetailsFanOut]; omega, ?_⟩
          simp only [getPostDetailsFanOut, if_neg h200, List.map_cons, List.cons_append]
          exact ihp2.cons id
        · refine ⟨by simp [getPostDetailsFanOut, hs]; omega, ?_⟩
          simp only [getPostDetailsFanOut, if_pos hs, List.map_cons]
          exact (List.perm_middle.trans (ihp2.cons id))
    · cases o with
      | connErr =>
        refine ⟨by simp [getFanboxPostsFanOut]; omega, ?_⟩
        simp only [getFanboxPostsFanOut, List.map_cons]
        exact (List.perm_middle.trans (ihf2.cons id))
      | response status =>
        by_cases hs : status = 200
        · subst hs
          have h200 : ¬((200 : Nat) ≠ 200) := by decide
          refine ⟨by simp [getFanboxPostsFanOut]; omega, ?_⟩
          simp only [getFanboxPostsFanOut, if_neg h200, List.map_cons, List.cons_append]
          exact ihf2.cons id
        · refine ⟨by simp [getFanboxPostsFanOut, hs]; omega, ?_⟩
          simp only [getFanboxPostsFanOut, if_pos hs, List.map_cons]
          exact (List.perm_middle.trans (ihf2.cons id))

/-- C7: whenever `RefreshAccessToken` returns without an error, the network
outcome was a decoded 200 response, the stored access token is exactly the
token of that response, and the stored expiry is the refresh time plus the
response-declared `expires_in` minus the 15-second safety margin. -/
theorem c7_refresh_success (s : TokenState) (now : Int) (o : RefreshOutcome)
    (s' : TokenState) (h : RefreshAccessToken s now o = (s', none)) :
    ∃ oauth, o = .response 200 (some oauth) ∧
      s'.accessToken = oauth.accessToken ∧
      s'.expiresAt = now + (oauth.expiresIn - 15) := by
  cases o with
  | connErr => simp [RefreshAccessToken] at h
  | response status body =>
    by_cases hs : status = 200
    · subst hs
      cases body with
      | none => simp [RefreshAccessToken] at h
      | some oauth =>
        refine ⟨oauth, rfl, ?_, ?_⟩ <;>
          simp [RefreshAccessToken] at h <;> simp [← h]
    · simp [RefreshAccessToken, hs] at h

/-- C7 witness: a concrete successful refresh at time 1000 with
`expires_in = 3600` stores the response token and expiry 1000 + 3585. -/
theorem c7_refresh_success_witness :
    ∃ oauth, (RefreshOutcome.response 200 (some ⟨"newTok", 3600⟩) : RefreshOutcome)
        = .response 200 (some oauth) ∧
      (TokenState.mk "newTok" 4585).accessToken = oauth.accessToken ∧
      (TokenState.mk "newTok" 4585).expiresAt = 1000 + (oauth.expiresIn - 15) :=
  c7_refresh_success ⟨"old", 0⟩ 1000 (.response 200 (some ⟨"newTok", 3600⟩))
    ⟨"newTok", 4585⟩ (by decide)

/-- Looking a path up is unaffected by removing a different path. -/
theorem lookup_fsRemove (fs : DlFS) (p q : String) (h : p ≠ q) :
    (fsRemove fs q).lookup p = fs.lookup p := by
  induction fs with
  | nil => rfl
  | cons e rest ih =>
    by_cases hq : e.1 = q
    · subst hq
      have hpe : (p == e.1) = false := by simp [h]
      simp [fsRemove, List.lookup, hpe] at ih ⊢
      exact ih
    · by_cases hpe : p = e.1
      · simp [fsRemove, List.lookup, hq, hpe]
      · have hpe' : (p == e.1) = false := by simp [hpe]
        simp [fsRemove, List.lookup, hq, hpe'] at ih ⊢
        exact ih

/-- C8: a download whose transport fails after `k` partially-written bytes
leaves no file at the final destination (the partial bytes went to the
temporary path, which is removed) and reports failure, while a full download
promotes the bytes to the final destination and reports success. -/
theorem c8_partial_failure (fs : DlFS) (tmpPath finalPath : String) (n k : Nat)
    (hne : tmpPath ≠ finalPath) (hfin : fs.lookup finalPath = none) :
    ((downloadToPath fs tmpPath finalPath (.errAfter k)).1.lookup finalPath = none ∧
      (downloadToPath fs tmpPath finalPath (.errAfter k)).2 = false) ∧
    ((downloadToPath fs tmpPath finalPath (.full n)).1.lookup finalPath = some n ∧
      (downloadToPath fs tmpPath finalPath (.full n)).2 = true) := by
  have hfin' : finalPath ≠ tmpPath := fun hcontra => hne hcontra.symm
  refine ⟨⟨?_, rfl⟩, ⟨?_, rfl⟩⟩
  · have h1 : (fsRemove (fsSet fs tmpPath k) tmpPath).lookup finalPath
        = (fsSet fs tmpPath k).lookup finalPath := lookup_fsRemove _ _ _ hfin'
    have h2 : (fsSet fs tmpPath k).lookup finalPath = fs.lookup finalPath := by
      have hb : (finalPath == tmpPath) = false := by simp [hfin']
      simp [fsSet, List.lookup, hb]
      exact lookup_fsRemove _ _ _ hfin'
    simp [downloadToPath, h1, h2, hfin]
  · have hself : (tmpPath == tmpPath) = true := by simp
    have hlook : (fsSet fs tmpPath n).lookup tmpPath = some n := by
      simp [fsSet, List.lookup, hself]
    have hbf : (finalPath == finalPath) = true := by simp
    simp [downloadToPath, fsRename, hlook, fsSet, List.lookup, hbf]

/-- C8 witness: on an empty file system with temporary path "a.tmp" and final
path "a", a transport that dies after 10 bytes leaves nothing at "a", and a
full 20-byte download leaves 20 bytes at "a". -/
theorem c8_partial_failure_witness :
    ((downloadToPath [] "a.tmp" "a" (.errAfter 10)).1.lookup "a" = none ∧
      (downloadToPath [] "a.tmp" "a" (.errAfter 10)).2 = false) ∧
    ((downloadToPath [] "a.tmp" "a" (.full 20)).1.lookup "a" = some 20 ∧
      (downloadToPath [] "a.tmp" "a" (.full 20)).2 = true) :=
  c8_partial_failure [] "a.tmp" "a" 20 10 (by decide) rfl

/-- With status checking on, no refresh, and every attempt yielding a decoded
non-200 response, the `SendRequest` loop consumes all remaining attempts and
exhausts. -/
theorem sendLoopAux_all_non200 (oracle : Nat → AttemptOutcome) (retryCounter : Nat)
    (h : ∀ j, ∃ s, oracle j = .response s true ∧ s ≠ 200) :
    ∀ left i, sendLoopAux oracle false true retryCounter left i = (i + left - 1, .exhausted) := by
  intro left
  induction left with
  | zero => intro i; simp [sendLoopAux]
  | succ left ih =>
    intro i
    obtain ⟨s, hs, hs200⟩ := h i
    simp only [sendLoopAux, hs]
    rw [if_neg (by simp), if_neg (by simp), if_neg (by simp), if_neg hs200, ih (i + 1)]
    congr 1
    omega

/-- C3 (amended): a 4xx status outside the retriable set is *not* terminal
after one attempt in `SendRequest`: with status checking enabled and no
refresh, any run of decoded non-200 responses (404 included) is retried until
the `RETRY_COUNTER` ceiling, after which the "failed after N retries" error is
returned with all `retryCounter` attempts consumed. -/
theorem c3_amended_non200_retried (oracle : Nat → AttemptOutcome) (retryCounter : Nat)
    (h : ∀ j, ∃ s, oracle j = .response s true ∧ s ≠ 200) :
    SendRequest oracle false true retryCounter = (retryCounter, .exhausted) := by
  unfold SendRequest
  rw [sendLoopAux_all_non200 oracle retryCounter h retryCounter 1]
  congr 1
  omega

/-- C3 witness: a permanent decoded 404 with ceiling 5 exhausts after 5
attempts. -/
theorem c3_amended_non200_retried_witness :
    SendRequest (fun _ => .response 404 true) false true 5 = (5, .exhausted) :=
  c3_amended_non200_retried (fun _ => .response 404 true) 5
    (fun _ => ⟨404, rfl, by decide⟩)

/-- C3 counterexample: a mock that always returns a decoded 404 (status
checking on, no refresh, ceiling 5 — the spec's default) makes `SendRequest`
perform 5 attempts and exhaust, not return a terminal error after exactly 1
attempt as the claim states. -/
theorem c3_counterexample_404_five_attempts :
    (SendRequest (fun _ => .response 404 true) false true 5).1 = 5 ∧
    ¬((SendRequest (fun _ => .response 404 true) false true 5).1 = 1) := by
  exact ⟨rfl, by decide⟩

/-- C4 (code bug): once `RefreshTokenIfReq` reports a refresh
(`refreshed = true`), the `if refreshed { continue }` branch of `SendRequest`
skips the success checks on *every* iteration, so even a run of decoded 200
responses is retried until the ceiling (5, the spec's default) and the
"failed after 5 retries" error is returned; the identical run without the
refresh flag returns success after exactly 1 attempt. -/
theorem c4_refreshed_overrides_200 :
    SendRequest (fun _ => .response 200 true) true true 5 = (5, .exhausted) ∧
    SendRequest (fun _ => .response 200 true) false true 5 = (1, .ok) :=
  ⟨rfl, rfl⟩

/-- One unfolding step of the mobile listing loop. -/
theorem mobileListLoop_succ (resp : Nat → MobileResp) (hasMax : Bool)
    (maxOffset fuel curOffset page : Nat) :
    mobileListLoop resp hasMax maxOffset (fuel + 1) curOffset page =
      if (resp page).nextUrl = none ∨ (hasMax ∧ maxOffset ≤ curOffset + 30) then
        ([curOffset], ((resp page).illusts, true))
      else
        (curOffset ::
            (mobileListLoop resp hasMax maxOffset fuel (curOffset + 30) (page + 1)).1,
          ((resp page).illusts ++
              (mobileListLoop resp hasMax maxOffset fuel (curOffset + 30) (page + 1)).2.1,
            (mobileListLoop resp hasMax maxOffset fuel (curOffset + 30) (page + 1)).2.2)) :=
  rfl

/-- The mobile listing loop performs at least one request when it has fuel. -/
theorem mobileListLoop_length_pos (resp : Nat → MobileResp) (hasMax : Bool)
    (maxOffset fuel curOffset page : Nat) :
    1 ≤ (mobileListLoop resp hasMax maxOffset (fuel + 1) curOffset page).1.length := by
  rw [mobileListLoop_succ]
  by_cases hc : (resp page).nextUrl = none ∨ (hasMax ∧ maxOffset ≤ curOffset + 30)
  · rw [if_pos hc]; simp
  · rw [if_neg hc]; simp

/-- C5 counterexample: the mobile listing loop receives a first page with
*zero* items but a present `next_url` (maxPage unset); the claim says the
loop is then done after that single page, but the loop issues a second
request (offsets 0 and 30 are both requested) and only stops at the second
page's absent `next_url`. -/
theorem c5_counterexample_zero_items_continues :
    mobileListLoop (fun k => if k = 0 then ⟨[], some "next"⟩ else ⟨["a"], none⟩)
        false 0 5 0 0 = ([0, 30], (["a"], true)) ∧
    ¬((mobileListLoop (fun k => if k = 0 then ⟨[], some "next"⟩ else ⟨["a"], none⟩)
        false 0 5 0 0).1.length = 1) :=
  ⟨rfl, by decide⟩

/-- C5 (amended): the two listing loops have different termination
conditions.  The mobile loop stops after a page exactly when that page's
`next_url` is absent or (maxPage set and the next offset reaches the max
offset) — a zero-item page with a present `next_url` does not stop it.  The
web tag-search loop stops when a page yields zero new items (spec example:
zero entities on page 3 with maxPage unset gives pages 1,2,3 then done) or
when maxPage is set and the page exceeds it (pages 2..4 for minPage=2,
maxPage=4). -/
theorem c5_amended_termination :
    (∀ (resp : Nat → MobileResp) (hasMax : Bool) (maxOffset fuel curOffset page : Nat),
      (mobileListLoop resp hasMax maxOffset (fuel + 2) curOffset page).1.length = 1 ↔
        ((resp page).nextUrl = none ∨ (hasMax ∧ maxOffset ≤ curOffset + 30))) ∧
    tagSearchLoop (fun p => .ok (if p = 3 then [] else ["a"])) 1 0 false 10 0
      = ([1, 2, 3], (["a", "a"], true)) ∧
    tagSearchLoop (fun _ => .ok ["a"]) 2 4 true 10 0
      = ([2, 3, 4], (["a", "a", "a"], true)) := by
  refine ⟨?_, rfl, rfl⟩
  intro resp hasMax maxOffset fuel curOffset page
  constructor
  · intro hlen
    by_contra hcond
    rw [mobileListLoop_succ, if_neg hcond] at hlen
    dsimp only at hlen
    rw [List.length_cons] at hlen
    have hpos := mobileListLoop_length_pos resp hasMax maxOffset fuel (curOffset + 30) (page + 1)
    omega
  · intro hcond
    rw [mobileListLoop_succ, if_pos hcond]
    rfl

/-- C5 amended witness: the mobile-loop characterization applied at a
concrete input — a first page with an absent `next_url` stops the loop after
exactly one request. -/
theorem c5_amended_termination_witness :
    (mobileListLoop (fun _ => ⟨["a"], none⟩) false 0 2 0 0).1.length = 1 :=
  (c5_amended_termination.1 (fun _ => ⟨["a"], none⟩) false 0 0 0 0).mpr (Or.inl rfl)

/-- C6: the offsets requested by the mobile listing loop form the arithmetic
progression starting at the start offset with step 30 (the page size); the
first request of `GetIllustratorPosts` uses offset `(minPage-1) * 30`; and
the worked example minPage=2, maxPage=4 requests exactly the offsets
30, 60, 90 and then finishes. -/
theorem c6_offset_accounting :
    (∀ (resp : Nat → MobileResp) (hasMax : Bool) (maxOffset fuel curOffset page : Nat),
      (mobileListLoop resp hasMax maxOffset fuel curOffset page).1 =
        (List.range (mobileListLoop resp hasMax maxOffset fuel curOffset page).1.length).map
          (fun i => curOffset + 30 * i)) ∧
    (∀ (resp : Nat → MobileResp) (minPage maxPage : Nat) (hasMax : Bool) (fuel : Nat),
      (GetIllustratorPostsMobile resp minPage maxPage hasMax (fuel + 1)).1.head? =
        some ((minPage - 1) * 30)) ∧
    GetIllustratorPostsMobile (fun _ => ⟨["a"], some "next"⟩) 2 4 true 10
      = ([30, 60, 90], (["a", "a", "a"], true)) := by
  refine ⟨?_, ?_, rfl⟩
  · intro resp hasMax maxOffset fuel
    induction fuel with
    | zero => intro curOffset page; simp [mobileListLoop]
    | succ fuel ih =>
      intro curOffset page
      rw [mobileListLoop_succ]
      by_cases hc : (resp page).nextUrl = none ∨ (hasMax ∧ maxOffset ≤ curOffset + 30)
      · rw [if_pos hc]
        show [curOffset] = List.map (fun i => curOffset + 30 * i) (List.range [curOffset].length)
        rw [show ([curOffset] : List Nat).length = 1 from rfl,
          show List.range 1 = [0] from rfl]
        simp
      · rw [if_neg hc]
        dsimp only
        rw [List.length_cons, List.range_succ_eq_map, List.map_cons, List.map_map]
        refine List.cons_eq_cons.mpr ⟨by simp, ?_⟩
        have hfun : ((fun i => curOffset + 30 * i) ∘ Nat.succ)
            = fun i => curOffset + 30 + 30 * i := by
          funext i
          simp only [Function.comp_apply]
          omega
        rw [hfun]
        exact ih (curOffset + 30) (page + 1)
  · intro resp minPage maxPage hasMax fuel
    show (mobileListLoop resp hasMax (maxPage * 30) (fuel + 1) ((minPage - 1) * 30) 0).1.head?
      = some ((minPage - 1) * 30)
    rw [mobileListLoop_succ]
    by_cases hc : (resp 0).nextUrl = none ∨ (hasMax ∧ maxPage * 30 ≤ (minPage - 1) * 30 + 30)
    · rw [if_pos hc]; rfl
    · rw [if_neg hc]; rfl

/-- Running a concatenated schedule is running the two halves in turn. -/
theorem mgrRun_append (now : Int) (o : RefreshOutcome) (s : MgrState) (l1 l2 : List Nat) :
    mgrRun now o s (l1 ++ l2) = mgrRun now o (mgrRun now o s l1) l2 :=
  List.foldl_append _ _ _ _

/-- A step of a caller at `start` over an expired token: the caller moves to
`needRefresh`, nothing else changes. -/
theorem mgrStep_start_expired (now : Int) (o : RefreshOutcome) (s : MgrState) (c : Nat)
    (h : s.pcs c = .start) (hv : tokenIsValid s.tok now = false) :
    mgrStep now o s c = { s with pcs := Function.update s.pcs c .needRefresh } := by
  unfold mgrStep
  rw [h]
  simp [hv]

/-- A step of a caller at `needRefresh`: one atomic `RefreshAccessToken`
call. -/
theorem mgrStep_needRefresh (now : Int) (o : RefreshOutcome) (s : MgrState) (c : Nat)
    (h : s.pcs c = .needRefresh) :
    mgrStep now o s c =
      { tok := (RefreshAccessToken s.tok now o).1,
        refreshCount := s.refreshCount + 1,
        pcs := Function.update s.pcs c .finished } := by
  unfold mgrStep
  rw [h]

/-- Check phase: with the shared token expired, scheduling the unlocked
expiry check of callers `0..n-1` (all still at `start`) moves every one of
them to `needRefresh` and leaves the shared token and refresh count
untouched. -/
theorem mgrRun_checks (now : Int) (o : RefreshOutcome) (n : Nat) (s : MgrState)
    (hexp : tokenIsValid s.tok now = false) (hpcs : ∀ c, c < n → s.pcs c = .start) :
    mgrRun now o s (List.range n) =
      { tok := s.tok, refreshCount := s.refreshCount,
        pcs := fun c => if c < n then .needRefresh else s.pcs c } := by
  induction n with
  | zero =>
    show s = _
    refine MgrState.ext rfl rfl ?_
    funext c
    simp
  | succ n ih =>
    rw [List.range_succ, mgrRun_append,
      ih (fun c hc => hpcs c (Nat.lt_succ_of_lt hc))]
    show mgrStep now o
      { tok := s.tok, refreshCount := s.refreshCount,
        pcs := fun c => if c < n then CallerPC.needRefresh else s.pcs c } n = _
    rw [mgrStep_start_expired now o
      { tok := s.tok, refreshCount := s.refreshCount,
        pcs := fun c => if c < n then CallerPC.needRefresh else s.pcs c } n
      (by simp [hpcs n (Nat.lt_succ_self n)]) hexp]
    refine MgrState.ext rfl rfl ?_
    funext c
    rcases eq_or_ne c n with rfl | hc
    · simp [Function.update_apply]
    · by_cases hlt : c < n
      · simp [Function.update_apply, hc, hlt, Nat.lt_succ_of_lt hlt]
      · have hnlt : ¬(c < n + 1) := by omega
        simp [Function.update_apply, hc, hlt, hnlt]

/-- Refresh phase: scheduling the (mutex-serialized, atomic) refreshes of
callers `0..n-1` (all at `needRefresh`) performs `n` refresh calls; with a
decoded 200 outcome every call overwrites the shared token with the response
token, so the final token is the response token whenever `n ≥ 1`. -/
theorem mgrRun_refreshes (now : Int) (j : OauthJson) (n : Nat) (s : MgrState)
    (hpcs : ∀ c, c < n → s.pcs c = .needRefresh) :
    mgrRun now (.response 200 (some j)) s (List.range n) =
      { tok := if 0 < n then ⟨j.accessToken, now + (j.expiresIn - 15)⟩ else s.tok,
        refreshCount := s.refreshCount + n,
        pcs := fun c => if c < n then .finished else s.pcs c } := by
  induction n with
  | zero =>
    show s = _
    refine MgrState.ext (by simp) rfl ?_
    funext c
    simp
  | succ n ih =>
    rw [List.range_succ, mgrRun_append,
      ih (fun c hc => hpcs c (Nat.lt_succ_of_lt hc))]
    show mgrStep now (.response 200 (some j))
      { tok := if 0 < n then ⟨j.accessToken, now + (j.expiresIn - 15)⟩ else s.tok,
        refreshCount := s.refreshCount + n,
        pcs := fun c => if c < n then CallerPC.finished else s.pcs c } n = _
    rw [mgrStep_needRefresh now (.response 200 (some j))
      { tok := if 0 < n then ⟨j.accessToken, now + (j.expiresIn - 15)⟩ else s.tok,
        refreshCount := s.refreshCount + n,
        pcs := fun c => if c < n then CallerPC.finished else s.pcs c } n
      (by simp [hpcs n (Nat.lt_succ_self n)])]
    refine MgrState.ext ?_ ?_ ?_
    · show (RefreshAccessToken
          (if 0 < n then ⟨j.accessToken, now + (j.expiresIn - 15)⟩ else s.tok)
          now (.response 200 (some j))).1 = _
      simp [RefreshAccessToken]
    · show s.refreshCount + n + 1 = s.refreshCount + (n + 1)
      omega
    · funext c
      rcases eq_or_ne c n with rfl | hc
      · simp [Function.update_apply]
      · by_cases hlt : c < n
        · simp [Function.update_apply, hc, hlt, Nat.lt_succ_of_lt hlt]
        · have hnlt : ¬(c < n + 1) := by omega
          simp [Function.update_apply, hc, hlt, hnlt]

/-- C2 counterexample: two callers hit `RefreshTokenIfReq` with the token
expired and both run the unlocked expiry check before either refreshes
(schedule: check₀, check₁, refresh₀, refresh₁ — a legal interleaving, since
the check does not take `accessTokenMu`).  Two refresh calls are made, not
exactly one as the claim states. -/
theorem c2_counterexample_two_refreshes :
    (mgrRun 1000 (.response 200 (some ⟨"newTok", 3600⟩)) (mgrInit ⟨"", 0⟩ 2)
        [0, 1, 0, 1]).refreshCount = 2 ∧
    ¬((mgrRun 1000 (.response 200 (some ⟨"newTok", 3600⟩)) (mgrInit ⟨"", 0⟩ 2)
        [0, 1, 0, 1]).refreshCount = 1) :=
  ⟨rfl, by decide⟩

/-- C2 (amended): when `N` concurrent callers of `RefreshTokenIfReq` all run
the unlocked expiry check on an expired token before any refresh happens,
*each* caller performs its own `RefreshAccessToken` call — `N` refresh calls
in total, serialized by the mutex, not exactly one — and after all of them
complete every caller has returned and the stored token is the (common)
token of the refresh response. -/
theorem c2_amended_n_refreshes (now : Int) (tok : TokenState) (j : OauthJson)
    (n : Nat) (hexp : tokenIsValid tok now = false) (hn : 0 < n) :
    (mgrRun now (.response 200 (some j)) (mgrInit tok n)
        (List.range n ++ List.range n)).refreshCount = n ∧
    (mgrRun now (.response 200 (some j)) (mgrInit tok n)
        (List.range n ++ List.range n)).tok
      = ⟨j.accessToken, now + (j.expiresIn - 15)⟩ ∧
    ∀ c, c < n → (mgrRun now (.response 200 (some j)) (mgrInit tok n)
        (List.range n ++ List.range n)).pcs c = .finished := by
  rw [mgrRun_append,
    mgrRun_checks now _ n (mgrInit tok n) hexp (fun c hc => by simp [mgrInit, hc]),
    mgrRun_refreshes now j n _ (fun c hc => by simp [hc])]
  refine ⟨by simp [mgrInit], by simp [hn], ?_⟩
  intro c hc
  simp [hc]

/-- C2 amended witness: three concurrent callers on an expired token, all
checking first, make exactly three refresh calls and all finish with the
response token. -/
theorem c2_amended_n_refreshes_witness :
    (mgrRun 1000 (.response 200 (some ⟨"newTok", 3600⟩)) (mgrInit ⟨"", 0⟩ 3)
        (List.range 3 ++ List.range 3)).refreshCount = 3 ∧
    (mgrRun 1000 (.response 200 (some ⟨"newTok", 3600⟩)) (mgrInit ⟨"", 0⟩ 3)
        (List.range 3 ++ List.range 3)).tok = ⟨"newTok", 1000 + (3600 - 15)⟩ ∧
    ∀ c, c < 3 → (mgrRun 1000 (.response 200 (some ⟨"newTok", 3600⟩)) (mgrInit ⟨"", 0⟩ 3)
        (List.range 3 ++ List.range 3)).pcs c = .finished :=
  c2_amended_n_refreshes 1000 ⟨"", 0⟩ ⟨"newTok", 3600⟩ 3 (by decide) (by decide)

/-- Any cookie a txt line contributes carries the session cookie name. -/
theorem parseTxtLine_name (cookieArgs : CookieInfoArgs) (rawLine : String) (c : Cookie)
    (h : parseTxtLine cookieArgs rawLine = some c) : c.name = cookieArgs.name := by
  simp only [parseTxtLine] at h
  split at h
  · simp at h
  · split at h
    · simp at h
    · split at h
      · simp at h
      · rename_i hname
        have hname' := not_not.mp hname
        split at h
        · split at h
          · simp at h
          · split at h <;>
            · obtain rfl := Option.some.inj h
              exact hname'
        · obtain rfl := Option.some.inj h
          exact hname'

/-- Any cookie a decoded JSON entry contributes carries the session cookie
name. -/
theorem parseJsonCookie_name (cookieArgs : CookieInfoArgs) (e : ExportedCookie) (c : Cookie)
    (h : parseJsonCookie cookieArgs e = some c) : c.name = cookieArgs.name := by
  simp only [parseJsonCookie] at h
  split at h
  · simp at h
  · rename_i hname
    obtain rfl := Option.some.inj h
    exact not_not.mp hname

/-- Every cookie the txt parser returns carries the session cookie name. -/
theorem parseTxtCookieFile_names (lines : List String) (cookieArgs : CookieInfoArgs) :
    ∀ c ∈ parseTxtCookieFile lines cookieArgs, c.name = cookieArgs.name := by
  intro c hc
  simp only [parseTxtCookieFile, List.mem_filterMap] at hc
  obtain ⟨l, _, hl⟩ := hc
  exact parseTxtLine_name cookieArgs l c hl

/-- Every cookie the json parser returns carries the session cookie name. -/
theorem parseJsonCookieFile_names (decoded : List ExportedCookie)
    (cookieArgs : CookieInfoArgs) :
    ∀ c ∈ parseJsonCookieFile decoded cookieArgs, c.name = cookieArgs.name := by
  intro c hc
  simp only [parseJsonCookieFile, List.mem_filterMap] at hc
  obtain ⟨e, _, he⟩ := hc
  exact parseJsonCookie_name cookieArgs e c he

/-- C9: `ParseNetscapeCookieFile` (i) rejects any call in which both the
cookie-file path and the session id are non-empty, and (ii) whenever it
succeeds the returned cookie slice is non-empty and every cookie in it bears
the session-cookie name configured for the requested website. -/
theorem c9_parseNetscapeCookieFile_contract (fs : String → Option CookieFileData)
    (filePath sessionId : String) (website : Website) :
    ((filePath ≠ "" ∧ sessionId ≠ "") →
      ParseNetscapeCookieFile fs filePath sessionId website = .error .bothFlags) ∧
    (∀ cookies, ParseNetscapeCookieFile fs filePath sessionId website = .ok cookies →
      cookies ≠ [] ∧
      ∀ c ∈ cookies, c.name = (GetSessionCookieInfo website).name) := by
  constructor
  · intro h
    simp only [ParseNetscapeCookieFile, if_pos h]
  · intro cookies h
    simp only [ParseNetscapeCookieFile] at h
    split at h
    · simp at h
    · split at h
      · simp at h
      · rename_i content hcontent
        split at h
        · simp at h
        · rename_i parsedCookies hparsed
          split at h
          · simp at h
          · rename_i hnonempty
            obtain rfl := Except.ok.inj h
            refine ⟨by simpa using hnonempty, ?_⟩
            split at hparsed
            · obtain rfl := Except.ok.inj hparsed
              exact parseTxtCookieFile_names content.lines _
            · split at hparsed
              · split at hparsed
                · simp at hparsed
                · obtain rfl := Except.ok.inj hparsed
                  exact parseJsonCookieFile_names _ _
              · simp at hparsed

/-- C9 witness: with both flags set the parser rejects, and on a concrete
one-line Netscape cookies.txt for Fantia it succeeds with one `_session_id`
cookie. -/
theorem c9_parseNetscapeCookieFile_contract_witness :
    ParseNetscapeCookieFile
        (fun _ => some ⟨["fantia.jp\tTRUE\t/\tTRUE\t0\t_session_id\tabc"], none⟩)
        "cookies.txt" "sess" .fantia = .error .bothFlags ∧
    (([⟨"_session_id", "abc", "fantia.jp", "/", true, true, .laxMode, none⟩] :
        List Cookie) ≠ [] ∧
      ∀ c ∈ ([⟨"_session_id", "abc", "fantia.jp", "/", true, true, .laxMode, none⟩] :
          List Cookie),
        c.name = (GetSessionCookieInfo .fantia).name) := by
  constructor
  · exact (c9_parseNetscapeCookieFile_contract
        (fun _ => some ⟨["fantia.jp\tTRUE\t/\tTRUE\t0\t_session_id\tabc"], none⟩)
        "cookies.txt" "sess" .fantia).1 ⟨by decide, by decide⟩
  · exact (c9_parseNetscapeCookieFile_contract
        (fun _ => some ⟨["fantia.jp\tTRUE\t/\tTRUE\t0\t_session_id\tabc"], none⟩)
        "cookies.txt" "" .fantia).2 _ (by rfl)

end CulturedDownloader
